import Mathlib

/-!
Verification of the rsttp HTTP/1.1 server: a shallow embedding of the core of the `rsttp` repository (a hand-built
HTTP/1.1 server in Rust) together with theorems settling a list of claims
about it.

Embedding conventions:
* Rust `&str`/`String` values are Lean `String`s.  The Rust standard-library
  string operations used by the server (`split`, `starts_with`, `contains`,
  `to_lowercase`, `trim`, `strip_prefix`, byte length `len`) are modelled by
  executable functions on the underlying character list (`String.data`), in
  the `RStr` namespace, so that every definition evaluates inside the kernel.
  `char::is_alphabetic`, `to_lowercase` and `trim` are modelled on their
  ASCII fragments (every string the claims touch is ASCII).
* `Result<T, E>` becomes `Except E T` (or `Option T` where the error carries
  no information), `HashMap<String, String>` becomes an association list with
  an insert operation that replaces any existing binding for the key.
* The `flate2` gzip encoder is an external collaborator; it is passed to the
  response serializer as an explicit function `gzip : String → Option String`
  (`none` models a compression failure, in which case `write_to` falls back
  to the uncompressed body, exactly like the source).
* Integer subtraction on `usize` (`split_data.len() - 2`) is modelled with
  truncated `Nat` subtraction, which for the list operations involved agrees
  with Rust's release-mode wrapping behaviour (see `headerLoopBoundUnderflows`
  for the debug-mode overflow condition).
-/

/-! ## Rust string primitives (`RStr`) -/

namespace RStr

/-- Does the character list `p` occur as an initial segment of `l`?
Models `str::starts_with` on the character level. -/
def startsWithList (p l : List Char) : Bool :=
  match p, l with
  | [], _ => true
  | _ :: _, [] => false
  | c :: cs, d :: ds => c == d && startsWithList cs ds

/-- Models Rust `s.starts_with(p)`. -/
def startsWith (s p : String) : Bool :=
  startsWithList p.data s.data

/-- Fuel-driven splitter over character lists: splits `l` at every
(non-overlapping, leftmost) occurrence of the non-empty separator `sep`.
The fuel is always called with at least `l.length + 1`, which suffices. -/
def splitListAux (sep : List Char) : Nat → List Char → List Char → List (List Char)
  | 0, acc, _ => [acc.reverse]
  | _ + 1, acc, [] => [acc.reverse]
  | fuel + 1, acc, c :: cs =>
    if startsWithList sep (c :: cs) then
      acc.reverse :: splitListAux sep fuel [] ((c :: cs).drop sep.length)
    else
      splitListAux sep fuel (c :: acc) cs

/-- Models Rust `s.split(sep)` for a non-empty separator (the only way the
server uses it): the list of fragments between occurrences of `sep`,
including empty fragments. -/
def splitOn (s sep : String) : List String :=
  if sep.data.isEmpty then [s]
  else (splitListAux sep.data (s.data.length + 1) [] s.data).map String.mk

/-- Models Rust `s.contains(c)` for a single-character pattern. -/
def containsChar (s : String) (c : Char) : Bool :=
  s.data.contains c

/-- ASCII lower-casing of one character (the fragment of Rust
`char::to_lowercase`/`eq_ignore_ascii_case` exercised by the server). -/
def chToLower (c : Char) : Char :=
  if 65 ≤ c.toNat && c.toNat ≤ 90 then Char.ofNat (c.toNat + 32) else c

/-- Models Rust `s.to_lowercase()` on ASCII strings. -/
def toLower (s : String) : String :=
  ⟨s.data.map chToLower⟩

/-- ASCII whitespace predicate (fragment of Rust `char::is_whitespace`). -/
def chIsWs (c : Char) : Bool :=
  c == ' ' || c == '\t' || c == '\n' || c == '\r'

/-- Models Rust `s.trim()` on ASCII strings. -/
def trim (s : String) : String :=
  ⟨((s.data.dropWhile chIsWs).reverse.dropWhile chIsWs).reverse⟩

/-- Models Rust character-boundary slicing `&s[n..]` / `split_at(n).1`
(the server only slices ASCII strings, where bytes and characters agree). -/
def drop (s : String) (n : Nat) : String :=
  ⟨s.data.drop n⟩

/-- UTF-8 size in bytes of one character. -/
def chUtf8Size (c : Char) : Nat :=
  if c.toNat < 128 then 1
  else if c.toNat < 2048 then 2
  else if c.toNat < 65536 then 3
  else 4

/-- Models Rust `s.len()`: the length of a string in UTF-8 bytes. -/
def utf8Len (s : String) : Nat :=
  s.data.foldl (fun n c => n + chUtf8Size c) 0

/-- Models Rust `slice.join(sep)`. -/
def intercalate (sep : String) : List String → String
  | [] => ""
  | a :: rest => rest.foldl (fun acc x => acc ++ sep ++ x) a

/-- Models Rust `a.eq_ignore_ascii_case(b)`. -/
def eqIgnoreAsciiCase (a b : String) : Bool :=
  toLower a == toLower b

/-- ASCII fragment of Rust `char::is_alphabetic` (every path segment the
server classifies is ASCII). -/
def chIsAlpha (c : Char) : Bool :=
  (65 ≤ c.toNat && c.toNat ≤ 90) || (97 ≤ c.toNat && c.toNat ≤ 122)

end RStr

deriving instance DecidableEq for Except

namespace Rsttp

/-! ## `HashMap<String, String>` model -/

/-- Rust `std::collections::HashMap<String, String>` modelled as an association
list.  `hmInsert k v m` models `m.insert(k, v)`: it replaces any existing
binding of `k` and otherwise adds one. -/
def hmInsert (k v : String) (m : List (String × String)) : List (String × String) :=
  (k, v) :: m.filter (fun p => !(p.1 == k))

/-- Models `HashMap::get`. -/
def hmLookup (m : List (String × String)) (k : String) : Option String :=
  (m.find? (fun p => p.1 == k)).map Prod.snd

/-- The key set of the map (as a list of keys). -/
def hmKeys (m : List (String × String)) : List String :=
  m.map Prod.fst

/-! ## `src/router/path.rs` -/

inductive PathPartType where
  | Static
  | Dynamic
  deriving DecidableEq, Repr

structure PathPart where
  part : String
  part_type : PathPartType
  deriving DecidableEq, Repr

/-- Model of `impl FromStr for PathPart` (`src/router/path.rs`): empty segments are
rejected, a `:`-prefixed segment becomes `Dynamic` (value = suffix), any
other segment becomes `Static` provided its first character is alphabetic. -/
def PathPart.from_str (s : String) : Option PathPart :=
  if s.data.isEmpty then none
  else if RStr.startsWith s ":" then
    some ⟨RStr.drop s 1, PathPartType.Dynamic⟩
  else
    match s.data.head? with
    | some c => if !(RStr.chIsAlpha c) then none else some ⟨s, PathPartType.Static⟩
    | none => some ⟨s, PathPartType.Static⟩

structure Path where
  parts : List PathPart
  deriving DecidableEq, Repr

/-- Model of the `collect::<Result<Vec<PathPart>, _>>()` over `PathPart::from_str`
results: all-or-nothing. -/
def collectParts : List String → Option (List PathPart)
  | [] => some []
  | s :: rest =>
    match PathPart.from_str s, collectParts rest with
    | some p, some ps => some (p :: ps)
    | _, _ => none

/-- Model of `Path::parse` (`src/router/path.rs`): requires the input to start with
`/` (and contain a `/`), splits on `/`, drops empty segments, and classifies
each remaining segment; any segment failure fails the whole parse. -/
def Path.parse (path : String) : Option Path :=
  if !(RStr.startsWith path "/") || !(RStr.containsChar path '/') then none
  else
    let path_parts := (RStr.splitOn path "/").filter (fun e => !(e.data.isEmpty))
    match collectParts path_parts with
    | some parts => some ⟨parts⟩
    | none => none

/-- Model of `impl PartialEq for Path` (`src/router/path.rs`): the asymmetric route
matching equality — same segment count, and at every position a `Static`
left segment must equal the right segment's value. -/
def Path.eq (self other : Path) : Bool :=
  self.parts.length == other.parts.length
    && (self.parts.zip other.parts).all
        (fun ab => ab.1.part_type != PathPartType.Static || ab.1.part == ab.2.part)

/-- Model of `Path::get_if_matches`: `none` unless `self == other` (route equality),
otherwise the zipped list of (route segment, request segment) pairs. -/
def Path.get_if_matches (self other : Path) : Option (List (PathPart × PathPart)) :=
  if !(Path.eq self other) then none
  else some (self.parts.zip other.parts)

/-- Model of `Path::get_req_param`: keeps the pairs whose route side is `Dynamic` and
whose request side is `Static`, and collects them into a `HashMap`
(modelled as a fold of inserts, later bindings overwriting earlier ones). -/
def Path.get_req_param (self req_path : Path) : Option (List (String × String)) :=
  (Path.get_if_matches self req_path).map (fun parts =>
    (parts.filterMap (fun ab =>
        if ab.1.part_type == PathPartType.Dynamic && ab.2.part_type == PathPartType.Static
        then some (ab.1.part, ab.2.part) else none)).foldl
      (fun m p => hmInsert p.1 p.2 m) [])

/-- Spec-side helper: the names of the Dynamic segments of a route. -/
def Path.dynNames (p : Path) : List String :=
  p.parts.filterMap (fun a =>
    if a.part_type == PathPartType.Dynamic then some a.part else none)

/-- Spec-side helper (for the amended parameter-extraction claim): the names
of the Dynamic route segments whose positionally corresponding request
segment is Static. -/
def Path.dynStaticNames (r q : Path) : List String :=
  (r.parts.zip q.parts).filterMap (fun ab =>
    if ab.1.part_type == PathPartType.Dynamic && ab.2.part_type == PathPartType.Static
    then some ab.1.part else none)

/-! ## `src/http/request.rs` -/

inductive ReqType where
  | Get
  | Post
  | Options
  | Connect
  deriving DecidableEq, Repr

/-- Model of `impl FromStr for ReqType`. -/
def ReqType.from_str (s : String) : Option ReqType :=
  match s with
  | "GET" => some ReqType.Get
  | "POST" => some ReqType.Post
  | "OPTIONS" => some ReqType.Options
  | "CONNECT" => some ReqType.Connect
  | _ => none

inductive AcceptedEncoding where
  | Gzip
  deriving DecidableEq, Repr

/-- Model of `impl FromStr for AcceptedEncoding`. -/
def AcceptedEncoding.from_str (s : String) : Option AcceptedEncoding :=
  match s with
  | "gzip" => some AcceptedEncoding.Gzip
  | _ => none

/-- From `src/config.rs`: the only supported protocol token. -/
inductive HttpProtocol where
  | Http11
  deriving DecidableEq, Repr

/-- Model of `impl FromStr for HttpProtocol` (`src/config.rs`). -/
def HttpProtocol.from_str (s : String) : Option HttpProtocol :=
  match s with
  | "HTTP/1.1" => some HttpProtocol.Http11
  | _ => none

structure Request where
  req_type : ReqType
  path : Path
  protocol : HttpProtocol
  headers : List (String × String)
  body : String
  accept_encodings : List AcceptedEncoding
  deriving DecidableEq, Repr

/-- Shared helper of `extract_path_from_req_target` (`src/http/request.rs`) for
the absolute-form (minimum 3 tokens) and authority-form (minimum 2 tokens)
branches: split on spaces, stop at the first empty token, and compare the
token count against the minimum. -/
def targetSplitJoin (req_target : String) (min_req_len : Nat) : Except String String :=
  let parts := (RStr.splitOn req_target " ").takeWhile (fun s => !(s.data.isEmpty))
  if parts.length < min_req_len then Except.error "Invalid Request Form Target"
  else if parts.length == min_req_len then Except.ok "/"
  else Except.ok (RStr.intercalate "/" ("" :: parts.drop min_req_len))

/-- Model of `extract_path_from_req_target` (`src/http/request.rs`; the identical
function also appears in `src/main.rs`): classifies the request target as
asterisk-form, absolute-form, origin-form or authority-form — in the source's
guard order — and normalizes it to a path string. -/
def extract_path_from_req_target (req_target : String) : Except String String :=
  if req_target == "*" then Except.ok "*"
  else if RStr.startsWith req_target "http" then targetSplitJoin req_target 3
  else if RStr.startsWith req_target "/" then Except.ok req_target
  else if RStr.containsChar req_target ':' && !(RStr.containsChar req_target '/') then
    targetSplitJoin req_target 2
  else Except.error "Malformed request target form"

/-- The `Accept-Encoding` value handling inside the header loop of
`Request::new`: split the value on commas, trim, drop empty tokens, keep the
tokens recognized by `AcceptedEncoding::from_str` (in order). -/
def parseEncodingList (v : String) : List AcceptedEncoding :=
  (((RStr.splitOn v ",").map RStr.trim).filter (fun e => !(e.data.isEmpty))).filterMap
    AcceptedEncoding.from_str

/-- One iteration of the header loop of `Request::new` (`src/http/request.rs`
lines 123–144; the identical loop appears in `src/main.rs`): split the line
on the literal `": "`; a line that does not split into exactly two parts is
skipped; otherwise the accepted encodings are extended (for an
`accept-encoding` key, compared case-insensitively) and the header is stored
under its lower-cased key, overwriting any previous binding. -/
def headerFoldStep (st : List (String × String) × List AcceptedEncoding)
    (item : String) : List (String × String) × List AcceptedEncoding :=
  match RStr.splitOn item ": " with
  | [k, v] =>
    (hmInsert (RStr.toLower k) v st.1,
     if RStr.eqIgnoreAsciiCase k "accept-encoding" then st.2 ++ parseEncodingList v
     else st.2)
  | _ => st

/-- The header lines visited by the loop of `Request::new`:
`split_data.iter().take(split_data.len() - 2).skip(1)` — every line after the
request line and before the final two.  The `Nat` subtraction models Rust's
release-mode (wrapping) behaviour: for fewer than two lines both yield an
empty iteration. -/
def headerLines (data : String) : List String :=
  let split_data := RStr.splitOn data "\r\n"
  (split_data.take (split_data.length - 2)).drop 1

/-- Model of `Request::new` (`src/http/request.rs`): split the raw text on `\r\n`,
parse the request line (method, target, protocol), run the header loop, and
take the body as everything after the first `\r\n\r\n` (re-joined on that
separator). -/
def Request.new (data : String) : Except String Request :=
  let split_data := RStr.splitOn data "\r\n"
  match split_data with
  | [] => Except.error "Empty Request Metadata"
  | req_info :: _ =>
    match RStr.splitOn req_info " " with
    | [m_tok, t_tok, p_tok] =>
      match ReqType.from_str m_tok with
      | none => Except.error "Unsupported Request Type"
      | some req_type =>
        match extract_path_from_req_target t_tok with
        | Except.error e => Except.error e
        | Except.ok path_str =>
          match Path.parse path_str with
          | none => Except.error "Failed to Parse str to a Path\n"
          | some req_target =>
            match HttpProtocol.from_str p_tok with
            | none => Except.error "Unsupported HTTP Protocol"
            | some req_protocol =>
              let st := (headerLines data).foldl headerFoldStep ([], [])
              let body_split := RStr.splitOn data "\r\n\r\n"
              let req_body :=
                if body_split.length > 1 then
                  RStr.intercalate "\r\n\r\n" (body_split.drop 1)
                else ""
              Except.ok
                ⟨req_type, req_target, req_protocol, st.1, req_body, st.2⟩
    | _ => Except.error "Malformed Request Metadata"

/-- Model of `Request::header_val`: lookup under the lower-cased key. -/
def Request.header_val (r : Request) (header_key : String) : Option String :=
  hmLookup r.headers (RStr.toLower header_key)

/-- Model of `Request::has_connection_close_header`: the `Connection` header's value
is compared (case-sensitively) against `close`. -/
def Request.has_connection_close_header (r : Request) : Bool :=
  match r.header_val "Connection" with
  | some val => val == "close"
  | none => false

/-- The condition under which the loop bound `split_data.len() - 2` of
`Request::new` underflows `usize` (fewer than two `\r\n`-separated lines):
with overflow checks enabled (debug builds) the subtraction panics there;
in release builds it wraps around. -/
def headerLoopBoundUnderflows (data : String) : Bool :=
  decide ((RStr.splitOn data "\r\n").length < 2)

/-! ## `src/http/response.rs` -/

inductive HttpResponseCode where
  | R200
  | R201
  | R400
  | R404
  deriving DecidableEq, Repr

/-- Model of `HttpResponseCode::default_message`. -/
def HttpResponseCode.default_message : HttpResponseCode → String
  | HttpResponseCode.R200 => "OK"
  | HttpResponseCode.R201 => "Created"
  | HttpResponseCode.R400 => "Bad Request"
  | HttpResponseCode.R404 => "Not Found"

/-- Model of `impl Display for HttpResponseCode`. -/
def HttpResponseCode.codeText : HttpResponseCode → String
  | HttpResponseCode.R200 => "200"
  | HttpResponseCode.R201 => "201"
  | HttpResponseCode.R400 => "400"
  | HttpResponseCode.R404 => "404"

inductive ContentType where
  | TextPlain
  | ApplicationOctectStream
  deriving DecidableEq, Repr

/-- Model of `impl Display for ContentType`. -/
def ContentType.str : ContentType → String
  | ContentType.TextPlain => "text/plain"
  | ContentType.ApplicationOctectStream => "application/octet-stream"

/-- Model of `HttpHeader::in_raw_http_form` for `ContentType` (`key()` is
`"Content-Type"`). -/
def ContentType.in_raw_http_form (ct : ContentType) : String :=
  "Content-Type" ++ ": " ++ ct.str ++ "\r\n"

/-- Model of `impl Display for AcceptedEncoding`. -/
def AcceptedEncoding.str : AcceptedEncoding → String
  | AcceptedEncoding.Gzip => "gzip"

/-- Model of `HttpHeader::in_raw_http_form` for `AcceptedEncoding`
(`src/http/request.rs` lines 47–55): note that its `key()` is the request
header name `"Accept-Encoding"` — this impl is what `Response::write_to`
uses for the content-encoding line. -/
def AcceptedEncoding.in_raw_http_form (e : AcceptedEncoding) : String :=
  "Accept-Encoding" ++ ": " ++ e.str ++ "\r\n"

structure Response where
  protocol : HttpProtocol
  code : HttpResponseCode
  headers : List (String × String)
  body : Option String
  content_encoding : Option AcceptedEncoding
  content_type : ContentType
  deriving DecidableEq, Repr

/-- Model of `Response::default_message`. -/
def Response.default_message (code : HttpResponseCode) : Response :=
  ⟨HttpProtocol.Http11, code, [], none, none, ContentType.TextPlain⟩

/-- Model of `Response::success`. -/
def Response.success : Response :=
  Response.default_message HttpResponseCode.R200

/-- Model of `Response::bad_request`. -/
def Response.bad_request : Response :=
  Response.default_message HttpResponseCode.R400

/-- Model of `Response::not_found`. -/
def Response.not_found : Response :=
  Response.default_message HttpResponseCode.R404

/-- Model of `Response::new` (`src/http/response.rs` lines 99–118): the content
encoding is the first of the request's accepted encodings, if any —
independently of the body. -/
def Response.new (req : Request) (code : HttpResponseCode) (body : Option String)
    (content_type : ContentType) (protocol : HttpProtocol) : Response :=
  ⟨protocol, code, [], body,
    match req.accept_encodings with
    | [] => none
    | e :: _ => some e,
    content_type⟩

/-- The `(body_bytes, body_len)` computation at the top of
`Response::write_to`: gzip-compress when a body exists and gzip was
negotiated (falling back to the uncompressed body if the encoder fails),
pass the body through otherwise, and produce zero bytes for an absent body.
`gzip` abstracts the external `flate2` encoder; `none` models a failure of
`write_all`/`finish`. -/
def Response.final_body (gzip : String → Option String) (r : Response) : String × Nat :=
  match r.body, r.content_encoding with
  | some body, some AcceptedEncoding.Gzip =>
    match gzip body with
    | some cmprsd_bytes => (cmprsd_bytes, RStr.utf8Len cmprsd_bytes)
    | none => (body, RStr.utf8Len body)
  | some body, none => (body, RStr.utf8Len body)
  | none, _ => ("", 0)

/-- The `lines` vector built by `Response::write_to` (`src/http/response.rs`
lines 142–157): status line, the extra headers, the `Content-Type` line, the
content-encoding line (only if set, via `AcceptedEncoding`'s
`in_raw_http_form`), the `Content-Length` line, and the blank-line
terminator. -/
def Response.wire_lines (gzip : String → Option String) (r : Response) : List String :=
  ["HTTP/1.1 " ++ r.code.codeText ++ " " ++ r.code.default_message ++ "\r\n"]
    ++ r.headers.map (fun a => (a.1 ++ ": " ++ a.2) ++ "\r\n")
    ++ [r.content_type.in_raw_http_form]
    ++ (match r.content_encoding with
        | some e => [e.in_raw_http_form]
        | none => [])
    ++ ["Content-Length: " ++ Nat.repr (Response.final_body gzip r).2 ++ "\r\n", "\r\n"]

/-- Model of `Response::write_to`: the full byte sequence put on the wire — the
joined header lines followed by the (possibly compressed) body bytes. -/
def Response.write_to (gzip : String → Option String) (r : Response) : String :=
  String.join (Response.wire_lines gzip r) ++ (Response.final_body gzip r).1

/-! ## `src/router/mod.rs` and `src/router/route.rs` -/

/-- Model of `Route` (`src/router/route.rs`): a registered method + path pattern +
handler triple. -/
structure Route (Ctx : Type) where
  req_type : ReqType
  path : Path
  handler : Request → Option (List (String × String)) → Ctx → Response

/-- Model of `Router`: the ordered registration table. -/
structure Router (Ctx : Type) where
  routes : List (Route Ctx)

/-- The `for route in &self.routes` loop of `Router::handle_request`:
return at the first route whose method equals the request's method and whose
path (route on the left) matches the request's path, invoking its handler
with the request, the extracted parameters and the context. -/
def Router.handle_request_loop {Ctx : Type} (req : Request) (ctx : Ctx) :
    List (Route Ctx) → Response
  | [] => Response.not_found
  | route :: rest =>
    if route.req_type == req.req_type && Path.eq route.path req.path then
      route.handler req (route.path.get_req_param req.path) ctx
    else
      Router.handle_request_loop req ctx rest

/-- Model of `Router::handle_request` (`src/router/mod.rs` lines 29–37). -/
def Router.handle_request {Ctx : Type} (router : Router Ctx) (req : Request)
    (ctx : Ctx) : Response :=
  Router.handle_request_loop req ctx router.routes

/-! ## `src/rsttp_server.rs` — connection read handling -/

/-- The possible outcomes of the one bounded `stream.read` performed by
`RsttpServer::get_request_from_stream`, abstracting the socket:
zero bytes read, a timeout (`WouldBlock`/`TimedOut`), another I/O error,
invalid UTF-8 (carrying the decode error's message), or decoded text. -/
inductive ReadResult where
  | closed
  | timedOut
  | ioError (e : String)
  | invalidUtf8 (e : String)
  | dataRead (s : String)
  deriving DecidableEq, Repr

/-- Model of `RsttpServer::get_request_from_stream` (`src/rsttp_server.rs` lines
180–199): maps each read outcome to its error string, and feeds decoded
text to `Request::new`. -/
def get_request_from_stream : ReadResult → Except String Request
  | ReadResult.closed => Except.error "Connection closed by client"
  | ReadResult.timedOut => Except.error "Connection timed out"
  | ReadResult.ioError e => Except.error ("IO error: " ++ e)
  | ReadResult.invalidUtf8 e => Except.error e
  | ReadResult.dataRead s => Request.new s

/-- What the read-error branch of `RsttpServer::tcp_event_handler`
(`src/rsttp_server.rs` lines 116–127) does with the connection: hand a
parsed request onward, write `Response::bad_request` and return for any
error other than `"Connection closed by client"`, and close silently (just
removing the connection) for that one error. -/
inductive ReadOutcome where
  | request (r : Request)
  | respondBadRequest
  | closeSilently
  deriving DecidableEq, Repr

/-- The `match self.get_request_from_stream(stream)` statement of
`tcp_event_handler`: on `Err(e)`, a bad-request response is written unless
`e` is exactly `"Connection closed by client"`. -/
def handle_read_result (rr : ReadResult) : ReadOutcome :=
  match get_request_from_stream rr with
  | Except.ok req => ReadOutcome.request req
  | Except.error e =>
    if e != "Connection closed by client" then ReadOutcome.respondBadRequest
    else ReadOutcome.closeSilently

end Rsttp

/-! ## `src/main.rs`

`src/main.rs` is a self-contained earlier binary with its own copies of the
request/response types: its `Request.path` is the raw path *string*
(never parsed into a `Path`), its `protocol` is an unvalidated string, and
`handle_connection` dispatches on that string directly.  The claims about
served scenarios cite this file. -/

namespace Main

open Rsttp

structure Request where
  req_type : ReqType
  path : String
  protocol : String
  headers : List (String × String)
  body : String
  accept_encodings : List AcceptedEncoding
  deriving DecidableEq, Repr

/-- Model of `Request::new` (`src/main.rs` lines 130–192): like the library parser
but the target is kept as a string (no `Path::parse`) and the protocol token
is stored without validation. -/
def Request.new (data : String) : Except String Request :=
  let split_data := RStr.splitOn data "\r\n"
  match split_data with
  | [] => Except.error "Empty data found"
  | req_info :: _ =>
    match RStr.splitOn req_info " " with
    | [m_tok, t_tok, p_tok] =>
      match ReqType.from_str m_tok with
      | none => Except.error "Unsupported Request Type"
      | some req_type =>
        match extract_path_from_req_target t_tok with
        | Except.error e => Except.error e
        | Except.ok req_target =>
          let st := (headerLines data).foldl headerFoldStep ([], [])
          let body_split := RStr.splitOn data "\r\n\r\n"
          let req_body :=
            if body_split.length > 1 then
              RStr.intercalate "\r\n\r\n" (body_split.drop 1)
            else ""
          Except.ok ⟨req_type, req_target, p_tok, st.1, req_body, st.2⟩
    | _ => Except.error "Malformed Request Details"

/-- Model of `Request::header_val` (`src/main.rs`). -/
def Request.header_val (r : Request) (header_key : String) : Option String :=
  hmLookup r.headers (RStr.toLower header_key)

structure Response where
  protocol : String
  code : HttpResponseCode
  headers : List (String × String)
  body : Option String
  content_encoding : Option AcceptedEncoding
  deriving DecidableEq, Repr

/-- Model of `Response::empty` (`src/main.rs`). -/
def Response.empty (code : HttpResponseCode) : Response :=
  ⟨"HTTP/1.1", code, [], none, none⟩

/-- Model of `Response::new` (`src/main.rs` lines 288–309): picks the first accepted
encoding and stores the content type in the header map via `set_header`. -/
def Response.new (req : Request) (code : HttpResponseCode) (body : Option String)
    (content_type : ContentType) : Response :=
  ⟨"HTTP/1.1", code,
    hmInsert "Content-Type" content_type.str [],
    body,
    match req.accept_encodings with
    | [] => none
    | e :: _ => some e⟩

/-- The request-dispatching part of `handle_connection` (`src/main.rs` lines
395–492), given the text read from the socket.  The file-system collaborator
is abstracted: `fsRead path` models `fs::read_to_string`, `fsWrite path body`
models the success of `fs::write`.  `none` is returned when the code writes
no response at all (the `Options`/`Connect` arms of the `/files/` branch). -/
def handle_request_data (fsRead : String → Option String)
    (fsWrite : String → String → Bool) (files_dir : String)
    (read_data : String) : Option Response :=
  match Request.new read_data with
  | Except.error _ => some (Response.empty HttpResponseCode.R404)
  | Except.ok req =>
    if req.path == "/" then
      some (Response.new req HttpResponseCode.R200 none ContentType.TextPlain)
    else if RStr.startsWith req.path "/echo/" then
      if req.path == "/echo/" then
        some (Response.new req HttpResponseCode.R400 none ContentType.TextPlain)
      else
        some (Response.new req HttpResponseCode.R200 (some (RStr.drop req.path 6))
          ContentType.TextPlain)
    else if req.path == "/user-agent" then
      match req.header_val "User-Agent" with
      | some header_val =>
        some (Response.new req HttpResponseCode.R200 (some header_val)
          ContentType.TextPlain)
      | none => some (Response.new req HttpResponseCode.R400 none ContentType.TextPlain)
    else if RStr.startsWith req.path "/files/" then
      let file_path := files_dir ++ "/" ++ RStr.drop req.path 7
      match req.req_type with
      | ReqType.Get =>
        match fsRead file_path with
        | some content =>
          some (Response.new req HttpResponseCode.R200 (some content)
            ContentType.ApplicationOctectStream)
        | none => some (Response.new req HttpResponseCode.R404 none ContentType.TextPlain)
      | ReqType.Post =>
        if fsWrite file_path req.body then
          some (Response.new req HttpResponseCode.R201 none
            ContentType.ApplicationOctectStream)
        else some (Response.new req HttpResponseCode.R404 none ContentType.TextPlain)
      | ReqType.Options => none
      | ReqType.Connect => none
    else some (Response.new req HttpResponseCode.R404 none ContentType.TextPlain)

end Main

namespace Rsttp

/-- Spec-side (from the header-parsing claim's words): a header line is
split on the literal `": "`; it yields a pair exactly when that split has
exactly two parts, and the stored key is the lower-cased name. -/
def parseHeaderLine (line : String) : Option (String × String) :=
  match RStr.splitOn line ": " with
  | [k, v] => some (RStr.toLower k, v)
  | _ => none

/-- Spec-side (from the header-parsing claim's words): the well-formed
(key, value) pairs of the lines after the request line and before the final
two lines, in order of appearance. -/
def specHeaderPairs (data : String) : List (String × String) :=
  (headerLines data).filterMap parseHeaderLine

/-! ## Theorems -/

/-- Claim C3, counterexample: `Path::parse` accepts the bare `"/"` and returns a
`Path` with zero segments, so "a Path with zero segments is never
constructed by parse" is false. -/
theorem parse_root_yields_zero_segments :
    Path.parse "/" = some ⟨[]⟩
      ∧ (Path.parse "/").map (fun p => p.parts.length) = some 0 := by
  decide

/-- Claim C3, amended: if `Path::parse` succeeds then the input does start with
`/` — but the resulting `Path` may have zero segments (only the slash
requirement holds; `"/"` parses to the empty-segment path). -/
theorem parse_ok_starts_with_slash :
    ∀ (s : String) (p : Path), Path.parse s = some p → RStr.startsWith s "/" = true := by
  intro s p h
  by_cases hs : RStr.startsWith s "/" = true
  · exact hs
  · have hs' : RStr.startsWith s "/" = false := by simpa using hs
    simp [Path.parse, hs'] at h

/-- Witness for `parse_ok_starts_with_slash` at the concrete input
`"/abc"`. -/
theorem parse_ok_starts_with_slash_witness : RStr.startsWith "/abc" "/" = true :=
  parse_ok_starts_with_slash "/abc" ⟨[⟨"abc", PathPartType.Static⟩]⟩ (by decide)

/-- Claim C9, counterexample: for the input `"GET / HTTP/1.1"` (no `\r\n`, but
an otherwise valid request line) the raw split has a single line, so the
header-loop bound `split_data.len() - 2` does underflow `usize`. -/
theorem header_loop_bound_underflows_at_single_line :
    headerLoopBoundUnderflows "GET / HTTP/1.1" = true := by
  decide

/-- Claim C9, amended: under Rust's release (wrapping) semantics `Request::new`
is still total on the underflowing input — for `"GET / HTTP/1.1"` (a single
line after the split) the wrapped bound makes the header loop visit nothing
and parsing returns `Ok` with empty headers, empty body and no encodings;
with overflow checks enabled the subtraction `1 - 2` panics instead. -/
theorem request_new_total_on_single_line :
    Request.new "GET / HTTP/1.1"
        = Except.ok ⟨ReqType.Get, ⟨[]⟩, HttpProtocol.Http11, [], "", []⟩
      ∧ (RStr.splitOn "GET / HTTP/1.1" "\r\n").length = 1 := by
  decide

/-- Claim C1, counterexample: a timed-out read does *not* close the connection
silently — `tcp_event_handler` only treats the error string
`"Connection closed by client"` as a silent close, so the timeout error
(`"Connection timed out"`) falls into the branch that writes
`Response::bad_request()` to the socket, whose serialized bytes are the
non-empty 400 response shown. -/
theorem timeout_not_silent :
    handle_read_result ReadResult.timedOut = ReadOutcome.respondBadRequest
      ∧ Response.write_to (fun _ => none) Response.bad_request
          = "HTTP/1.1 400 Bad Request\r\nContent-Type: text/plain\r\nContent-Length: 0\r\n\r\n" := by
  decide

/-- Claim C1, amended: when a socket read fails with a timeout
(WouldBlock/TimedOut), the connection handler writes the fixed bad-request
response and then returns (the connection is no longer served); only a
zero-byte read — client disconnect — closes the connection without a
response being written. -/
theorem timeout_writes_bad_request :
    handle_read_result ReadResult.timedOut = ReadOutcome.respondBadRequest
      ∧ handle_read_result ReadResult.closed = ReadOutcome.closeSilently := by
  decide

/-- Claim C8: for the raw request bytes `GET /echo/ HTTP/1.1\r\n\r\n`,
`handle_connection` (`src/main.rs`) serves a response with status code 400
and reason phrase `Bad Request`, for every state of the file-system
collaborator — the empty echo segment is rejected. -/
theorem echo_empty_segment_served_400 :
    ∀ (fsRead : String → Option String) (fsWrite : String → String → Bool)
      (files_dir : String),
      (Main.handle_request_data fsRead fsWrite files_dir
          "GET /echo/ HTTP/1.1\r\n\r\n").map
          (fun resp => (resp.code, resp.code.default_message))
        = some (HttpResponseCode.R400, "Bad Request") :=
  fun _ _ _ => rfl

/-- Claim C6, the code evaluated at a failing input: for a response carrying a
negotiated gzip encoding (here built by `Response::new` from a request that
accepted gzip, with body `"hello"` and a failing compressor, so the
uncompressed fallback is sent), `write_to` emits the header line
`Accept-Encoding: gzip` — not `Content-Encoding` — because it serializes the
encoding through `AcceptedEncoding`'s `HttpHeader` impl whose key is the
request header name.  Everything else matches the claimed layout, including
`Content-Length: 5` (the byte length of the final body). -/
theorem write_to_emits_accept_encoding_line :
    Response.wire_lines (fun _ => none)
        (Response.new ⟨ReqType.Get, ⟨[]⟩, HttpProtocol.Http11, [], "", [AcceptedEncoding.Gzip]⟩
          HttpResponseCode.R200 (some "hello") ContentType.TextPlain HttpProtocol.Http11)
        = ["HTTP/1.1 200 OK\r\n", "Content-Type: text/plain\r\n",
           "Accept-Encoding: gzip\r\n", "Content-Length: 5\r\n", "\r\n"]
      ∧ (Response.wire_lines (fun _ => none)
          (Response.new ⟨ReqType.Get, ⟨[]⟩, HttpProtocol.Http11, [], "", [AcceptedEncoding.Gzip]⟩
            HttpResponseCode.R200 (some "hello") ContentType.TextPlain HttpProtocol.Http11)).contains
          "Content-Encoding: gzip\r\n" = false
      ∧ Response.write_to (fun _ => none)
          (Response.new ⟨ReqType.Get, ⟨[]⟩, HttpProtocol.Http11, [], "", [AcceptedEncoding.Gzip]⟩
            HttpResponseCode.R200 (some "hello") ContentType.TextPlain HttpProtocol.Http11)
        = "HTTP/1.1 200 OK\r\nContent-Type: text/plain\r\nAccept-Encoding: gzip\r\nContent-Length: 5\r\n\r\nhello" := by
  decide

/-- Claim C10, the code evaluated at the failing input: `Response::new` from a
request whose accepted encodings are non-empty sets `content_encoding` to
the first accepted encoding even with no body, and `write_to` of that
body-less response emits an encoding header line together with
`Content-Length: 0` and zero body bytes — but the line's name is
`Accept-Encoding: gzip`, not the claimed `Content-Encoding: gzip`. -/
theorem bodyless_response_keeps_encoding_header :
    ∀ gzip : String → Option String,
      (Response.new ⟨ReqType.Get, ⟨[]⟩, HttpProtocol.Http11, [], "", [AcceptedEncoding.Gzip]⟩
          HttpResponseCode.R200 none ContentType.TextPlain HttpProtocol.Http11).content_encoding
          = some AcceptedEncoding.Gzip
        ∧ Response.write_to gzip
            (Response.new ⟨ReqType.Get, ⟨[]⟩, HttpProtocol.Http11, [], "", [AcceptedEncoding.Gzip]⟩
              HttpResponseCode.R200 none ContentType.TextPlain HttpProtocol.Http11)
          = "HTTP/1.1 200 OK\r\nContent-Type: text/plain\r\nAccept-Encoding: gzip\r\nContent-Length: 0\r\n\r\n"
        ∧ (Response.final_body gzip
            (Response.new ⟨ReqType.Get, ⟨[]⟩, HttpProtocol.Http11, [], "", [AcceptedEncoding.Gzip]⟩
              HttpResponseCode.R200 none ContentType.TextPlain HttpProtocol.Http11)).1 = "" := by
  intro gzip
  have hfb : Response.final_body gzip
      (Response.new ⟨ReqType.Get, ⟨[]⟩, HttpProtocol.Http11, [], "", [AcceptedEncoding.Gzip]⟩
        HttpResponseCode.R200 none ContentType.TextPlain HttpProtocol.Http11) = ("", 0) := rfl
  refine ⟨rfl, ?_, by rw [hfb]⟩
  unfold Response.write_to Response.wire_lines
  rw [hfb]
  decide

end Rsttp

namespace Rsttp

/-- Helper: the route-scanning loop of `Router::handle_request` returns the
first-match characterization (`List.find?` over the registration list). -/
theorem handle_request_loop_eq_find {Ctx : Type} (req : Request) (ctx : Ctx) :
    ∀ rs : List (Route Ctx),
      Router.handle_request_loop req ctx rs
        = match rs.find? (fun rt => rt.req_type == req.req_type && Path.eq rt.path req.path) with
          | some rt => rt.handler req (rt.path.get_req_param req.path) ctx
          | none => Response.not_found
  | [] => rfl
  | route :: rest => by
    cases h : (route.req_type == req.req_type && Path.eq route.path req.path) with
    | false =>
      simp [Router.handle_request_loop, h, List.find?_cons,
        handle_request_loop_eq_find req ctx rest]
    | true =>
      simp [Router.handle_request_loop, h, List.find?_cons]

/-- Helper for the matching claim: the zipped `all` of the `PartialEq` impl,
on raw segment lists, is equivalent to the positional formulation. -/
theorem path_eq_iff_aux : ∀ (xs ys : List PathPart),
    (xs.length == ys.length
      && (xs.zip ys).all
          (fun ab => ab.1.part_type != PathPartType.Static || ab.1.part == ab.2.part)) = true
    ↔ (xs.length = ys.length ∧ ∀ (i : Nat) (h₁ : i < xs.length) (h₂ : i < ys.length),
        (xs.get ⟨i, h₁⟩).part_type = PathPartType.Static →
          (xs.get ⟨i, h₁⟩).part = (ys.get ⟨i, h₂⟩).part)
  | [], [] => by
    constructor
    · intro _
      exact ⟨rfl, fun i h₁ => absurd h₁ (Nat.not_lt_zero i)⟩
    · intro _
      rfl
  | [], y :: ys => by
    constructor
    · intro h
      simp at h
    · rintro ⟨hlen, _⟩
      simp at hlen
  | x :: xs, [] => by
    constructor
    · intro h
      simp at h
    · rintro ⟨hlen, _⟩
      simp at hlen
  | x :: xs, y :: ys => by
    have ih := path_eq_iff_aux xs ys
    constructor
    · intro h
      simp only [List.zip_cons_cons, List.all_cons, List.length_cons, Bool.and_eq_true,
        beq_iff_eq, Bool.or_eq_true, bne_iff_ne] at h
      obtain ⟨hlen, hhead, htail⟩ := h
      have hlen' : xs.length = ys.length := by omega
      have ihmp := ih.mp (by
        simp only [Bool.and_eq_true, beq_iff_eq]
        exact ⟨hlen', htail⟩)
      refine ⟨by simpa using hlen, ?_⟩
      intro i h₁ h₂ hs
      cases i with
      | zero =>
        simp only [List.get] at hs ⊢
        rcases hhead with hne | heq
        · exact absurd hs hne
        · exact heq
      | succ n =>
        simp only [List.get] at hs ⊢
        exact ihmp.2 n (Nat.lt_of_succ_lt_succ h₁) (Nat.lt_of_succ_lt_succ h₂) hs
    · rintro ⟨hlen, hpos⟩
      simp only [List.length_cons] at hlen
      simp only [List.zip_cons_cons, List.all_cons, List.length_cons, Bool.and_eq_true,
        beq_iff_eq, Bool.or_eq_true, bne_iff_ne]
      have hlen' : xs.length = ys.length := by omega
      refine ⟨by omega, ?_, ?_⟩
      · by_cases hs : x.part_type = PathPartType.Static
        · right
          have := hpos 0 (Nat.succ_pos _) (Nat.succ_pos _) (by simpa [List.get] using hs)
          simpa [List.get] using this
        · left
          exact hs
      · have hb := ih.mpr ⟨hlen', fun n hn₁ hn₂ hns =>
          by simpa [List.get] using
            hpos (n + 1) (Nat.succ_lt_succ hn₁) (Nat.succ_lt_succ hn₂)
              (by simpa [List.get] using hns)⟩
        exact ((Bool.and_eq_true _ _).mp hb).2

end Rsttp

namespace Rsttp

/-- Claim C5: `matches(route, request)` (the `PartialEq for Path` impl, route
on the left) is true iff the two paths have the same segment count and at
every position where the route segment is Static its value equals the
request segment value at that position; Dynamic route segments match any
request segment value. -/
theorem route_matching_iff_positional (r q : Path) :
    Path.eq r q = true
      ↔ (r.parts.length = q.parts.length ∧ ∀ (i : Nat) (h₁ : i < r.parts.length)
          (h₂ : i < q.parts.length),
          (r.parts.get ⟨i, h₁⟩).part_type = PathPartType.Static →
            (r.parts.get ⟨i, h₁⟩).part = (q.parts.get ⟨i, h₂⟩).part) :=
  path_eq_iff_aux r.parts q.parts

/-- Witness for `route_matching_iff_positional`, applied to the route
`/echo/:text`-shaped path and the request `/echo/abc`-shaped path at
position 0 (the Static `echo` segment). -/
theorem route_matching_iff_positional_witness :
    ((Path.mk [⟨"echo", PathPartType.Static⟩, ⟨"text", PathPartType.Dynamic⟩]).parts.get
        ⟨0, by decide⟩).part
      = ((Path.mk [⟨"echo", PathPartType.Static⟩, ⟨"abc", PathPartType.Static⟩]).parts.get
        ⟨0, by decide⟩).part :=
  ((route_matching_iff_positional
      (Path.mk [⟨"echo", PathPartType.Static⟩, ⟨"text", PathPartType.Dynamic⟩])
      (Path.mk [⟨"echo", PathPartType.Static⟩, ⟨"abc", PathPartType.Static⟩])).mp
    (by decide)).2 0 (by decide) (by decide) (by decide)

/-- Claim C4: `Router::handle_request` performs a linear scan in registration
order and returns the result of the first registered route whose method
equals the request method and whose Path matches the request Path, invoking
that route handler with the request, `get_req_param(route.path,
request.path)` and the application context; with no match it returns the
fixed not-found Response. -/
theorem dispatch_first_match {Ctx : Type} (router : Router Ctx) (req : Request) (ctx : Ctx) :
    router.handle_request req ctx
      = match router.routes.find?
            (fun rt => rt.req_type == req.req_type && Path.eq rt.path req.path) with
        | some rt => rt.handler req (rt.path.get_req_param req.path) ctx
        | none => Response.not_found :=
  handle_request_loop_eq_find req ctx router.routes

/-- Helper: filtering out the bindings of one key does not change a lookup
for a different key. -/
theorem find?_filter_not_key (m : List (String × String)) (k q : String)
    (h : (q == k) = false) :
    (m.filter (fun p => !(p.1 == k))).find? (fun p => p.1 == q)
      = m.find? (fun p => p.1 == q) := by
  induction m with
  | nil => rfl
  | cons p ps ih =>
    by_cases hp : (p.1 == k) = true
    · have hpk : p.1 = k := by simpa using hp
      have hq : (p.1 == q) = false := by
        rw [hpk, beq_eq_false_iff_ne]
        exact Ne.symm (beq_eq_false_iff_ne.mp h)
      rw [List.filter_cons_of_neg (by simp [hp]),
        List.find?_cons_of_neg ps (by simp [hq]), ih]
    · have hp' : (p.1 == k) = false := by simpa using hp
      cases hq : (p.1 == q) with
      | true =>
        rw [List.filter_cons_of_pos (by simp [hp']),
          List.find?_cons_of_pos (List.filter (fun p => !(p.1 == k)) ps) hq,
          List.find?_cons_of_pos ps hq]
      | false =>
        rw [List.filter_cons_of_pos (by simp [hp']),
          List.find?_cons_of_neg (List.filter (fun p => !(p.1 == k)) ps) (by simp [hq]),
          List.find?_cons_of_neg ps (by simp [hq]), ih]

/-- Helper: lookup after a `HashMap` insert — the inserted key maps to the
new value, every other key is unchanged. -/
theorem hmLookup_hmInsert (m : List (String × String)) (k v q : String) :
    hmLookup (hmInsert k v m) q = if (q == k) = true then some v else hmLookup m q := by
  unfold hmInsert hmLookup
  by_cases h : (q == k) = true
  · have hk : (k == q) = true := by
      have : q = k := by simpa using h
      simp [this]
    rw [List.find?_cons_of_pos (m.filter (fun p => !(p.1 == k))) hk]
    simp [h]
  · have h' : (q == k) = false := by simpa using h
    have hk : (k == q) = false := by
      have hne : ¬ q = k := by simpa using h
      rw [beq_eq_false_iff_ne]
      exact fun hc => hne hc.symm
    rw [List.find?_cons_of_neg (m.filter (fun p => !(p.1 == k))) (by simp [hk]),
      find?_filter_not_key m k q h']
    simp [h']

/-- Helper: the key set after a `HashMap` insert is the old key set plus the
inserted key. -/
theorem mem_hmKeys_hmInsert (a k v : String) (m : List (String × String)) :
    a ∈ hmKeys (hmInsert k v m) ↔ a = k ∨ a ∈ hmKeys m := by
  unfold hmKeys hmInsert
  simp only [List.map_cons, List.mem_cons, List.mem_map, List.mem_filter]
  constructor
  · rintro (rfl | ⟨p, ⟨hpm, _⟩, rfl⟩)
    · exact Or.inl rfl
    · exact Or.inr ⟨p, hpm, rfl⟩
  · rintro (rfl | ⟨p, hpm, rfl⟩)
    · exact Or.inl rfl
    · by_cases hpk : p.1 = k
      · exact Or.inl hpk
      · exact Or.inr ⟨p, ⟨hpm, by simpa using hpk⟩, rfl⟩

/-- Helper: the key set of a `HashMap` collected by folding inserts is the
set of first components of the inserted pairs (plus the initial keys). -/
theorem mem_hmKeys_foldInsert (a : String) :
    ∀ (ps : List (String × String)) (init : List (String × String)),
      a ∈ hmKeys (ps.foldl (fun m p => hmInsert p.1 p.2 m) init)
        ↔ a ∈ ps.map Prod.fst ∨ a ∈ hmKeys init
  | [], init => by simp
  | p :: ps, init => by
    rw [List.foldl_cons, mem_hmKeys_foldInsert a ps (hmInsert p.1 p.2 init)]
    rw [mem_hmKeys_hmInsert]
    simp only [List.map_cons, List.mem_cons]
    tauto

end Rsttp

namespace Rsttp

/-- Claim C2, counterexample: for the route `/:a` and the request `/:b` —
both constructible by `Path::parse` — `matches` is true but `get_req_param`
returns an empty mapping, whose key set misses the Dynamic segment name `a`:
the claimed "key set equals exactly the Dynamic segment names of the route"
fails, because Dynamic/Dynamic pairs are filtered out. -/
theorem get_req_param_drops_dynamic_request_segment :
    Path.parse "/:a" = some ⟨[⟨"a", PathPartType.Dynamic⟩]⟩
      ∧ Path.parse "/:b" = some ⟨[⟨"b", PathPartType.Dynamic⟩]⟩
      ∧ Path.eq ⟨[⟨"a", PathPartType.Dynamic⟩]⟩ ⟨[⟨"b", PathPartType.Dynamic⟩]⟩ = true
      ∧ Path.get_req_param ⟨[⟨"a", PathPartType.Dynamic⟩]⟩ ⟨[⟨"b", PathPartType.Dynamic⟩]⟩
          = some []
      ∧ Path.dynNames ⟨[⟨"a", PathPartType.Dynamic⟩]⟩ = ["a"]
      ∧ (hmKeys []).contains "a" = false := by
  decide

/-- Claim C2, amended: `get_req_param` returns None iff `matches` is false;
and any returned mapping has as key set exactly the names of the Dynamic
route segments whose positionally corresponding request segment is Static
(so exactly the Dynamic names whenever the request has no Dynamic
segments). -/
theorem get_req_param_keys (r q : Path) :
    ((Path.get_req_param r q = none) ↔ Path.eq r q = false)
      ∧ (∀ m, Path.get_req_param r q = some m →
          ∀ k, (k ∈ hmKeys m ↔ k ∈ Path.dynStaticNames r q)) := by
  constructor
  · unfold Path.get_req_param Path.get_if_matches
    cases h : Path.eq r q with
    | false => simp [h]
    | true => simp [h]
  · intro m hm k
    unfold Path.get_req_param Path.get_if_matches at hm
    cases h : Path.eq r q with
    | false => rw [h] at hm; simp at hm
    | true =>
      rw [h] at hm
      simp only [Bool.not_true, Bool.false_eq_true, if_false, Option.map_some',
        Option.some.injEq] at hm
      rw [← hm]
      rw [mem_hmKeys_foldInsert]
      have hkeys : hmKeys ([] : List (String × String)) = [] := rfl
      rw [hkeys]
      simp only [List.mem_nil_iff, or_false]
      rw [List.map_filterMap]
      unfold Path.dynStaticNames
      have hfa : ∀ ab : PathPart × PathPart,
          Option.map Prod.fst
              (if ab.1.part_type == PathPartType.Dynamic
                  && ab.2.part_type == PathPartType.Static
                then some (ab.1.part, ab.2.part) else none)
            = (if ab.1.part_type == PathPartType.Dynamic
                  && ab.2.part_type == PathPartType.Static
                then some ab.1.part else none) := by
        intro ab
        cases hc : (ab.1.part_type == PathPartType.Dynamic
            && ab.2.part_type == PathPartType.Static) <;> simp [hc]
      simp only [hfa]

/-- Witness for `get_req_param_keys`, applied to the route `/echo/:text`
and the request `/echo/abc`: the key `text` is in the returned mapping. -/
theorem get_req_param_keys_witness :
    "text" ∈ hmKeys [("text", "abc")] :=
  ((get_req_param_keys ⟨[⟨"echo", PathPartType.Static⟩, ⟨"text", PathPartType.Dynamic⟩]⟩
        ⟨[⟨"echo", PathPartType.Static⟩, ⟨"abc", PathPartType.Static⟩]⟩).2
      [("text", "abc")] (by decide) "text").mpr (by decide)

end Rsttp

namespace Rsttp

/-- Helper: a lookup in the header map built by the fold of the header loop
equals the value of the last well-formed line with that (lower-cased) key —
formulated as a find-first over the reversed spec-side pair list — falling
back to the initial map. -/
theorem headerFold_lookup (q : String) :
    ∀ (L : List String) (init : List (String × String) × List AcceptedEncoding),
      hmLookup ((L.foldl headerFoldStep init).1) q
        = (((L.filterMap parseHeaderLine).reverse.find? (fun p => p.1 == q)).map
            Prod.snd).or (hmLookup init.1 q)
  | [], init => by simp
  | a :: L, init => by
    rw [List.foldl_cons, headerFold_lookup q L (headerFoldStep init a)]
    rcases hsp : RStr.splitOn a ": " with _ | ⟨k, _ | ⟨v, _ | ⟨w, rest⟩⟩⟩
    · simp [headerFoldStep, parseHeaderLine, hsp]
    · simp [headerFoldStep, parseHeaderLine, hsp]
    · simp only [headerFoldStep, parseHeaderLine, hsp, List.filterMap_cons,
        List.reverse_cons, List.find?_append]
      rw [hmLookup_hmInsert]
      cases hf : (List.filterMap parseHeaderLine L).reverse.find? (fun p => p.1 == q) with
      | some pr => simp [hf]
      | none =>
        simp only [hf, Option.map_none', Option.none_or]
        by_cases hq : q = RStr.toLower k
        · have h1 : (q == RStr.toLower k) = true := by simp [hq]
          have h2 : ((RStr.toLower k, v).1 == q) = true := by simp [hq]
          rw [List.find?_cons_of_pos ([] : List (String × String)) h2]
          simp [h1]
        · have h1 : (q == RStr.toLower k) = false := by simp [hq]
          have h2 : ((RStr.toLower k, v).1 == q) = false := by
            rw [beq_eq_false_iff_ne]
            exact fun hc => hq hc.symm
          rw [List.find?_cons_of_neg ([] : List (String × String)) (by simp [h2])]
          simp [h1]
    · simp [headerFoldStep, parseHeaderLine, hsp]

/-- Claim C7: for every raw request text accepted by `Request::new`, looking
up a key in the resulting header map yields the value paired with that key
by the last line — among the lines after the request line and before the
final two — that splits on the literal `": "` into exactly two parts, under
lower-casing of the stored name; lines that do not so split are skipped
silently (the parse does not fail because of them), and on duplicate keys
the last occurrence wins. -/
theorem header_parse_last_wins (s : String) (r : Request)
    (h : Request.new s = Except.ok r) (q : String) :
    hmLookup r.headers q
      = ((specHeaderPairs s).reverse.find? (fun p => p.1 == q)).map Prod.snd := by
  have hh : r.headers = ((headerLines s).foldl headerFoldStep ([], [])).1 := by
    simp only [Request.new] at h
    repeat' split at h
    all_goals injection h
    all_goals rename_i h2
    all_goals rw [← h2]
  rw [hh, headerFold_lookup q (headerLines s) ([], [])]
  have hnil : hmLookup (([], ([] : List AcceptedEncoding)) :
      List (String × String) × List AcceptedEncoding).1 q = none := rfl
  rw [hnil, Option.or_none]
  rfl

end Rsttp

namespace Rsttp

/-- Witness for `header_parse_last_wins` at a concrete raw request whose
header section has a duplicate key (`Foo`/`FOO`) and a malformed line
(`BadLine`): the lookup of `foo` yields the later value `b`. -/
theorem header_parse_last_wins_witness :
    hmLookup (Request.mk ReqType.Get ⟨[]⟩ HttpProtocol.Http11 [("foo", "b")] "" []).headers
        "foo" = some "b" := by
  have h := header_parse_last_wins "GET / HTTP/1.1\r\nFoo: a\r\nBadLine\r\nFOO: b\r\n\r\n"
    (Request.mk ReqType.Get ⟨[]⟩ HttpProtocol.Http11 [("foo", "b")] "" []) (by decide) "foo"
  rw [h]
  decide

end Rsttp
